import Mathlib

/-!
Verification development for the ELF decoder in `src/elf/file.rs` of the
execfmt repository.  The decoder is shallowly embedded: the generic Rust
function `File::parse<R: io::Read + io::Seek>` becomes a Lean function
parameterised over an abstract reader interface `ReaderOps`, byte streams
are lists of naturals (byte values), machine integers are naturals, and
fallible code returns `Except`.  Rust panics (array indexing out of
bounds, `Result::unwrap` on an error) are modelled by a distinct error
constructor `PErr.fatal`, kept apart from returned `io::Error` values
(`PErr.ioErr`).
-/

namespace Execfmt

/-- Model of `std::io::Error`: `other` is `io::Error::new(ErrorKind::Other, msg)`,
`unexpectedEof` is the error produced by `read_exact` on a short source, and
`device` stands for an arbitrary error of the underlying byte source. -/
inductive IOErr where
  | other (msg : String)
  | unexpectedEof
  | device (code : Nat)
deriving DecidableEq

/-- Outcome-level errors of the decode: either a returned `io::Error`
(`ioErr`) or a Rust panic (`fatal`). -/
inductive PErr where
  | ioErr (e : IOErr)
  | fatal (msg : String)
deriving DecidableEq

/-- Abstract interface of the Rust bound `R : io::Read + io::Seek`, as used by
`File::parse`.  Every operation returns its `Result` together with the reader
state after the call (the Rust methods take `&mut self`).
`seek` is `Seek::seek(SeekFrom::Start n)`; `readUpTo` is `Read::read` into a
buffer of length `n` (may return fewer bytes without error); `readExact` is
the `read_exact` used by the byteorder `read_u16/u32/u64` helpers (short
source is an error); `readByte` is one step of the `Read::bytes()` iterator
(`ok none` at end of stream). -/
structure ReaderOps (σ : Type) where
  seek : σ → Nat → Except IOErr Unit × σ
  readUpTo : σ → Nat → Except IOErr (List Nat) × σ
  readExact : σ → Nat → Except IOErr (List Nat) × σ
  readByte : σ → Except IOErr (Option Nat) × σ

/-- Little-endian value of a byte list (first byte least significant). -/
def leNat (bs : List Nat) : Nat := bs.foldr (fun b acc => b + 256 * acc) 0

/-- Big-endian value of a byte list (first byte most significant). -/
def beNat (bs : List Nat) : Nat := bs.foldl (fun acc b => 256 * acc + b) 0

/-- Modelled from the spec: constants of `elf::types`, which is part of the
repository but not under `src/`.  Spec section 6 fixes the identification
layout: bytes 0 to 3 are the ELF magic `0x7f 'E' 'L' 'F'`, byte 4 is the
class (1 = 32-bit, 2 = 64-bit), byte 5 the data encoding (1 = little-endian,
2 = big-endian), byte 7 the OS ABI and byte 8 the ABI version; the
identification block is 16 bytes long. -/
def ELFMAG : List Nat := [127, 69, 76, 70]

/-- Modelled from the spec: length of the identification block. -/
def EI_NIDENT : Nat := 16

/-- Modelled from the spec: index of the class byte. -/
def EI_CLASS : Nat := 4

/-- Modelled from the spec: index of the data-encoding byte. -/
def EI_DATA : Nat := 5

/-- Modelled from the spec: index of the OS ABI byte. -/
def EI_OSABI : Nat := 7

/-- Modelled from the spec: index of the ABI-version byte. -/
def EI_ABIVERSION : Nat := 8

/-- Modelled from the spec: class tag for 32-bit files. -/
def ELFCLASS32 : Nat := 1

/-- Modelled from the spec: class tag for 64-bit files. -/
def ELFCLASS64 : Nat := 2

/-- Modelled from the spec: data-encoding tag for little-endian files. -/
def ELFDATA2LSB : Nat := 1

/-- Modelled from the spec: data-encoding tag for big-endian files. -/
def ELFDATA2MSB : Nat := 2

/-- The `read_u16!` macro: dispatch on the data-encoding tag, read exactly two
bytes in the selected order, or fail with "invalid endianness". -/
def readU16 {σ : Type} (ops : ReaderOps σ) (data : Nat) (r : σ) :
    Except IOErr Nat × σ :=
  if data = ELFDATA2LSB then
    match ops.readExact r 2 with
    | (.ok bs, r) => (.ok (leNat bs), r)
    | (.error e, r) => (.error e, r)
  else if data = ELFDATA2MSB then
    match ops.readExact r 2 with
    | (.ok bs, r) => (.ok (beNat bs), r)
    | (.error e, r) => (.error e, r)
  else (.error (.other "invalid endianness"), r)

/-- The `read_u32!` macro. -/
def readU32 {σ : Type} (ops : ReaderOps σ) (data : Nat) (r : σ) :
    Except IOErr Nat × σ :=
  if data = ELFDATA2LSB then
    match ops.readExact r 4 with
    | (.ok bs, r) => (.ok (leNat bs), r)
    | (.error e, r) => (.error e, r)
  else if data = ELFDATA2MSB then
    match ops.readExact r 4 with
    | (.ok bs, r) => (.ok (beNat bs), r)
    | (.error e, r) => (.error e, r)
  else (.error (.other "invalid endianness"), r)

/-- The `read_u64!` macro. -/
def readU64 {σ : Type} (ops : ReaderOps σ) (data : Nat) (r : σ) :
    Except IOErr Nat × σ :=
  if data = ELFDATA2LSB then
    match ops.readExact r 8 with
    | (.ok bs, r) => (.ok (leNat bs), r)
    | (.error e, r) => (.error e, r)
  else if data = ELFDATA2MSB then
    match ops.readExact r 8 with
    | (.ok bs, r) => (.ok (beNat bs), r)
    | (.error e, r) => (.error e, r)
  else (.error (.other "invalid endianness"), r)

/-- Scan loop of `get_elf_string`, iterating over the bytes from position
`i` on while tracking the index `i`: the first zero byte ends the scan with
`end` set to its index; running off the end of the data keeps the initial
value `end = 0`. -/
def scanZeroAux : List Nat → Nat → Nat
  | [], _ => 0
  | b :: rest, i => if b = 0 then i else scanZeroAux rest (i + 1)

/-- Scan of `get_elf_string` lines 43 to 49: `end` starts at 0 and the loop
runs over indices `start` to `data.len()`. -/
def scanZero (data : List Nat) (start : Nat) : Nat :=
  scanZeroAux (data.drop start) start

/-- `get_elf_string` from `src/elf/file.rs`: scan for the terminator, then
build the name from the bytes between `start` and the end marker, each
interpreted as a single-byte character.  When no zero byte is found the end
marker keeps its initial value 0; if `start` is nonzero the Rust
`end - start` is then a usize underflow and `String::with_capacity` panics
(an arithmetic-overflow panic in debug builds, a capacity-overflow panic in
release builds — a panic either way, recorded here as one fatal outcome),
so the function only returns a string when the end marker is at or after
`start`. -/
def get_elf_string (data : List Nat) (start : Nat) : Except PErr String :=
  let e := scanZero data start
  if e < start then .error (.fatal "capacity overflow")
  else
    .ok (String.mk
      (((data.drop start).take (e - start)).map (fun b => Char.ofNat b)))

/-- Modelled from the spec: `elf::types::SectionHeader` (the repository file
`types.rs` is not under `src/`).  Field list and widths follow spec section 3:
flags, address, offset, size, alignment and entry size are 64-bit fields,
link and info 32-bit, the name a string resolved in a second pass. -/
structure SectionHeader where
  name : String
  shtype : Nat
  flags : Nat
  addr : Nat
  offset : Nat
  size : Nat
  link : Nat
  info : Nat
  addralign : Nat
  entsize : Nat
deriving DecidableEq

/-- Modelled from the spec: `elf::types::FileHeader`, per spec section 3. -/
structure FileHeader where
  class_ : Nat
  data : Nat
  version : Nat
  os_abi : Nat
  abi_version : Nat
  elf_type : Nat
  machine : Nat
  entrypoint : Nat
deriving DecidableEq

/-- `Section` from `src/elf/file.rs`: a header plus its raw payload. -/
structure Section where
  hdr : SectionHeader
  data : List Nat
deriving DecidableEq

/-- `File` from `src/elf/file.rs`: the decoded header plus the name-keyed
section map.  The `HashMap<String, Section>` is modelled as an association
list with `hashInsert` replacement semantics. -/
structure File where
  hdr : FileHeader
  sections : List (String × Section)
deriving DecidableEq

/-- `HashMap::insert`: replace the binding of an existing key in place,
otherwise add a new binding. -/
def hashInsert (k : String) (v : Section) :
    List (String × Section) → List (String × Section)
  | [] => [(k, v)]
  | (q, w) :: rest =>
      if q = k then (k, v) :: rest else (q, w) :: hashInsert k v rest

/-- Insert a list of bindings in order, starting from map `m`. -/
def hashInsertAll (ps : List (String × Section))
    (m : List (String × Section)) : List (String × Section) :=
  ps.foldl (fun m p => hashInsert p.1 p.2 m) m

/-- All locals of `File::parse` read before the section loops. -/
structure Ehdr where
  class_ : Nat
  data : Nat
  os_abi : Nat
  abi_version : Nat
  elf_type : Nat
  machine : Nat
  version : Nat
  entry : Nat
  phoff : Nat
  shoff : Nat
  flags : Nat
  ehsize : Nat
  phentsize : Nat
  phnum : Nat
  shentsize : Nat
  shnum : Nat
  shstrndx : Nat
deriving DecidableEq

/-- Move a primitive-read result into the decode error type: a returned
`io::Error` stays a returned error. -/
def liftE {σ α : Type} : Except IOErr α × σ → Except PErr (α × σ)
  | (.ok a, r) => .ok (a, r)
  | (.error e, _) => .error (.ioErr e)

/-- The class dispatch of lines 88 to 104 of `file.rs`: entry point,
program-header offset and section-header offset are read as 32-bit values and
widened (`as u64`, the identity on naturals) under class 32, read as 64-bit
values under class 64, and any other class is "invalid class". -/
def readAddrs {σ : Type} (ops : ReaderOps σ) (class_ data : Nat) (r : σ) :
    Except PErr ((Nat × Nat × Nat) × σ) :=
  if class_ = ELFCLASS32 then do
    let (entry, r) ← liftE (readU32 ops data r)
    let (phoff, r) ← liftE (readU32 ops data r)
    let (shoff, r) ← liftE (readU32 ops data r)
    .ok ((entry, phoff, shoff), r)
  else if class_ = ELFCLASS64 then do
    let (entry, r) ← liftE (readU64 ops data r)
    let (phoff, r) ← liftE (readU64 ops data r)
    let (shoff, r) ← liftE (readU64 ops data r)
    .ok ((entry, phoff, shoff), r)
  else .error (.ioErr (.other "invalid class"))

/-- Lines 75 to 112 of `File::parse`, after the identification block has been
obtained: magic check, extraction of class, data encoding, OS ABI and ABI
version from their fixed offsets, then the fixed field sequence of the file
header. -/
def parseWithIdent {σ : Type} (ops : ReaderOps σ) (eident : List Nat)
    (r : σ) : Except PErr (Ehdr × σ) :=
  if eident.take 4 ≠ ELFMAG then
    .error (.ioErr (.other "invalid magic number"))
  else
    let class_ := eident.getD EI_CLASS 0
    let data := eident.getD EI_DATA 0
    let os_abi := eident.getD EI_OSABI 0
    let abi_version := eident.getD EI_ABIVERSION 0
    do
    let (elf_type, r) ← liftE (readU16 ops data r)
    let (machine, r) ← liftE (readU16 ops data r)
    let (version, r) ← liftE (readU32 ops data r)
    let ((entry, phoff, shoff), r) ← readAddrs ops class_ data r
    let (flags, r) ← liftE (readU32 ops data r)
    let (ehsize, r) ← liftE (readU16 ops data r)
    let (phentsize, r) ← liftE (readU16 ops data r)
    let (phnum, r) ← liftE (readU16 ops data r)
    let (shentsize, r) ← liftE (readU16 ops data r)
    let (shnum, r) ← liftE (readU16 ops data r)
    let (shstrndx, r) ← liftE (readU16 ops data r)
    .ok ({ class_ := class_, data := data, os_abi := os_abi,
           abi_version := abi_version, elf_type := elf_type,
           machine := machine, version := version, entry := entry,
           phoff := phoff, shoff := shoff, flags := flags, ehsize := ehsize,
           phentsize := phentsize, phnum := phnum, shentsize := shentsize,
           shnum := shnum, shstrndx := shstrndx }, r)

/-- Lines 71 to 112 of `File::parse`: seek to absolute offset 0 with the
result of the seek discarded (the Rust source does not apply `try!` on line
71), read up to 16 bytes into a zero-initialised buffer with the byte count
discarded, then decode the header fields. -/
def parseEhdr {σ : Type} (ops : ReaderOps σ) (r : σ) :
    Except PErr (Ehdr × σ) :=
  let (_, r) := ops.seek r 0
  match ops.readUpTo r EI_NIDENT with
  | (.error e, _) => .error (.ioErr e)
  | (.ok bs, r) =>
      parseWithIdent ops ((bs ++ List.replicate EI_NIDENT 0).take EI_NIDENT) r

/-- One record of the section-header table, lines 121 to 171: 32-bit name
offset and type, then the class-dependent block.  Class 32 reads the widened
fields as 32-bit values (`as u64` widening is the identity on naturals);
class 64 reads them as 64-bit values with link and info still 32-bit.  The
final arm is the `unreachable!()` of line 156, modelled as a panic. -/
def readSectionHeader {σ : Type} (ops : ReaderOps σ) (data class_ : Nat)
    (r : σ) : Except PErr ((Nat × SectionHeader) × σ) := do
  let (nameIdx, r) ← liftE (readU32 ops data r)
  let (shtype, r) ← liftE (readU32 ops data r)
  if class_ = ELFCLASS32 then do
    let (flags, r) ← liftE (readU32 ops data r)
    let (addr, r) ← liftE (readU32 ops data r)
    let (offset, r) ← liftE (readU32 ops data r)
    let (size, r) ← liftE (readU32 ops data r)
    let (link, r) ← liftE (readU32 ops data r)
    let (info, r) ← liftE (readU32 ops data r)
    let (addralign, r) ← liftE (readU32 ops data r)
    let (entsize, r) ← liftE (readU32 ops data r)
    .ok ((nameIdx,
          { name := "", shtype := shtype, flags := flags, addr := addr,
            offset := offset, size := size, link := link, info := info,
            addralign := addralign, entsize := entsize }), r)
  else if class_ = ELFCLASS64 then do
    let (flags, r) ← liftE (readU64 ops data r)
    let (addr, r) ← liftE (readU64 ops data r)
    let (offset, r) ← liftE (readU64 ops data r)
    let (size, r) ← liftE (readU64 ops data r)
    let (link, r) ← liftE (readU32 ops data r)
    let (info, r) ← liftE (readU32 ops data r)
    let (addralign, r) ← liftE (readU64 ops data r)
    let (entsize, r) ← liftE (readU64 ops data r)
    .ok ((nameIdx,
          { name := "", shtype := shtype, flags := flags, addr := addr,
            offset := offset, size := size, link := link, info := info,
            addralign := addralign, entsize := entsize }), r)
  else .error (.fatal "unreachable")

/-- The first section loop (lines 121 to 171), iterated `shnum` times,
producing the name-offset list and the header list in index order. -/
def readSectionHeaders {σ : Type} (ops : ReaderOps σ) (data class_ : Nat) :
    Nat → σ → Except PErr ((List Nat × List SectionHeader) × σ)
  | 0, r => .ok (([], []), r)
  | n + 1, r => do
    let ((idx, sh), r) ← readSectionHeader ops data class_ r
    let ((idxs, shs), r) ← readSectionHeaders ops data class_ n r
    .ok ((idx :: idxs, sh :: shs), r)

/-- The payload read on line 177: `bytes().map(|x| x.unwrap()).take(n)`.
End of stream simply stops the iterator (a short result is not an error); an
io error from the source makes `unwrap` panic. -/
def readUpToBytes {σ : Type} (ops : ReaderOps σ) :
    Nat → σ → Except PErr (List Nat × σ)
  | 0, r => .ok ([], r)
  | n + 1, r =>
    match ops.readByte r with
    | (.error _, _) => .error (.fatal "unwrap on io error")
    | (.ok none, r) => .ok ([], r)
    | (.ok (some b), r) => do
        let (bs, r) ← readUpToBytes ops n r
        .ok (b :: bs, r)

/-- The second section loop (lines 173 to 179): for each header in index
order, seek to its declared offset (`try!` applied) and run the byte
iterator for its declared size. -/
def readDatas {σ : Type} (ops : ReaderOps σ) :
    List SectionHeader → σ → Except PErr (List (List Nat) × σ)
  | [], r => .ok ([], r)
  | sh :: rest, r =>
    match ops.seek r sh.offset with
    | (.error e, _) => .error (.ioErr e)
    | (.ok _, r) => do
        let (d, r) ← readUpToBytes ops sh.size r
        let (ds, r) ← readDatas ops rest r
        .ok (d :: ds, r)

/-- Body of the third section loop (lines 181 to 183), with the loop counter
turned into fuel: iteration `i` evaluates the right-hand side first — the
string-table payload indexed at `shstrndx`, the name-offset list indexed at
`i`, then the `get_elf_string` call, whose own panic propagates — and then
the assignment place, the header list indexed at `i`.  Each out-of-range
index is the corresponding Rust panic, and the header at `i` gets its name
replaced by the resolved string. -/
def resolveGo (datas : List (List Nat)) (idxs : List Nat) (shstrndx : Nat) :
    Nat → Nat → List SectionHeader → Except PErr (List SectionHeader)
  | 0, _, shs => .ok shs
  | fuel + 1, i, shs =>
    match datas.get? shstrndx with
    | none => .error (.fatal "index out of bounds")
    | some strtab =>
      match idxs.get? i with
      | none => .error (.fatal "index out of bounds")
      | some idx =>
        match get_elf_string strtab idx with
        | .error er => .error er
        | .ok nm =>
          match shs.get? i with
          | none => .error (.fatal "index out of bounds")
          | some sh =>
            resolveGo datas idxs shstrndx fuel (i + 1)
              (shs.set i { sh with name := nm })

/-- The third section loop: `for i in 0..shnum`. -/
def resolveNames (shnum shstrndx : Nat) (datas : List (List Nat))
    (idxs : List Nat) (shs : List SectionHeader) :
    Except PErr (List SectionHeader) :=
  resolveGo datas idxs shstrndx shnum 0 shs

/-- Lines 185 to 187: insert each header-payload pair into the map under the
resolved name, in header-table order. -/
def assemble (shs : List SectionHeader) (datas : List (List Nat)) :
    List (String × Section) :=
  hashInsertAll ((shs.zip datas).map
    (fun p => (p.1.name, { hdr := p.1, data := p.2 }))) []

/-- `File::parse`, the whole decode pipeline of lines 70 to 202. -/
def parse {σ : Type} (ops : ReaderOps σ) (r : σ) : Except PErr File :=
  match parseEhdr ops r with
  | .error e => .error e
  | .ok (e, r) =>
    match ops.seek r e.shoff with
    | (.error err, _) => .error (.ioErr err)
    | (.ok _, r) =>
      match readSectionHeaders ops e.data e.class_ e.shnum r with
      | .error er => .error er
      | .ok ((idxs, shs), r) =>
        match readDatas ops shs r with
        | .error er => .error er
        | .ok (datas, _) =>
          match resolveNames e.shnum e.shstrndx datas idxs shs with
          | .error er => .error er
          | .ok rs =>
            .ok { hdr := { class_ := e.class_, data := e.data,
                           version := e.version, os_abi := e.os_abi,
                           abi_version := e.abi_version,
                           elf_type := e.elf_type, machine := e.machine,
                           entrypoint := e.entry },
                  sections := assemble rs datas }

/-- Modelled from the spec: the crate-level `::Section` value returned by
`Object::get_section` (defined outside `src/`); its fields are fixed by the
construction on lines 227 to 232. -/
structure ObjSection where
  name : String
  addr : Nat
  size : Nat
  data : List Nat
deriving DecidableEq

/-- `Object::get_section` for `File` (lines 225 to 236): exact string lookup
in the section map. -/
def File.get_section (f : File) (name : String) : Option ObjSection :=
  match f.sections.lookup name with
  | some sect =>
      some { name := sect.hdr.name, addr := sect.hdr.addr,
             size := sect.hdr.size, data := sect.data }
  | none => none

/-- Modelled from the spec: the query operation returning the decoded
FileHeader (spec section 6); the `hdr` field is the decoded header. -/
def File.header (f : File) : FileHeader := f.hdr

/-- An in-memory byte source, the model of `io::Cursor` over the input
bytes: a byte list plus a cursor position. -/
structure Cursor where
  bytes : List Nat
  pos : Nat
deriving DecidableEq

/-- Reader operations of the in-memory source: seeking to any absolute
offset succeeds, `read` returns the available prefix of the requested
length, `read_exact` fails with an unexpected-eof error when fewer bytes
remain than requested, and the byte iterator yields `none` at end of
stream. -/
def cursorOps : ReaderOps Cursor where
  seek c n := (.ok (), { c with pos := n })
  readUpTo c n :=
    let bs := (c.bytes.drop c.pos).take n
    (.ok bs, { c with pos := c.pos + bs.length })
  readExact c n :=
    let bs := (c.bytes.drop c.pos).take n
    if bs.length = n then (.ok bs, { c with pos := c.pos + n })
    else (.error .unexpectedEof, { c with pos := c.bytes.length })
  readByte c :=
    match c.bytes.get? c.pos with
    | some b => (.ok (some b), { c with pos := c.pos + 1 })
    | none => (.ok none, c)

/-- Multi-byte field value under a data-encoding tag: little-endian for tag
1, big-endian for tag 2 (statement vocabulary for the theorems below). -/
def endVal (data : Nat) (bs : List Nat) : Nat :=
  if data = ELFDATA2LSB then leNat bs else beNat bs

/-- Little-endian encoding of a 16-bit value (fixture construction). -/
def le2 (v : Nat) : List Nat := [v % 256, v / 256 % 256]

/-- Little-endian encoding of a 32-bit value (fixture construction). -/
def le4 (v : Nat) : List Nat :=
  [v % 256, v / 256 % 256, v / 65536 % 256, v / 16777216 % 256]

/-- Little-endian encoding of a 64-bit value (fixture construction). -/
def le8 (v : Nat) : List Nat := le4 v ++ le4 (v / 4294967296)

/-- A well-formed 64-bit little-endian input with no sections: executable,
machine 62, entry point 0x400000, section-header offset 64, `shnum = 0`. -/
def fx0 : List Nat :=
  [127, 69, 76, 70, 2, 1, 1, 0, 0, 0, 0, 0, 0, 0, 0, 0] ++
  le2 2 ++ le2 62 ++ le4 1 ++
  le8 4194304 ++ le8 0 ++ le8 64 ++
  le4 0 ++ le2 64 ++ le2 56 ++ le2 0 ++ le2 64 ++ le2 0 ++ le2 0

/-- The decode of `fx0`. -/
def file0 : File :=
  { hdr := { class_ := 2, data := 1, version := 1, os_abi := 0,
             abi_version := 0, elf_type := 2, machine := 62,
             entrypoint := 4194304 },
    sections := [] }

/-- A well-formed 64-bit little-endian input with two sections: section 0 is
the string table (offset 192, size 7, payload `"\x00.text\x00"`), section 1
is named `.text` with offset 64 and size 16; `shstrndx = 0`. -/
def fxB : List Nat :=
  ([127, 69, 76, 70, 2, 1, 1, 0, 0, 0, 0, 0, 0, 0, 0, 0] ++
   le2 2 ++ le2 62 ++ le4 1 ++
   le8 0 ++ le8 0 ++ le8 64 ++
   le4 0 ++ le2 64 ++ le2 56 ++ le2 0 ++ le2 64 ++ le2 2 ++ le2 0) ++
  (le4 0 ++ le4 3 ++ le8 0 ++ le8 0 ++ le8 192 ++ le8 7 ++
   le4 0 ++ le4 0 ++ le8 0 ++ le8 0) ++
  (le4 1 ++ le4 1 ++ le8 0 ++ le8 0 ++ le8 64 ++ le8 16 ++
   le4 0 ++ le4 0 ++ le8 0 ++ le8 0) ++
  [0, 46, 116, 101, 120, 116, 0]

/-- The string-table section of `fxB` as decoded. -/
def secB0 : Section :=
  { hdr := { name := "", shtype := 3, flags := 0, addr := 0, offset := 192,
             size := 7, link := 0, info := 0, addralign := 0, entsize := 0 },
    data := [0, 46, 116, 101, 120, 116, 0] }

/-- The `.text` section of `fxB` as decoded: exactly 16 bytes read from
offset 64 of the source. -/
def secB1 : Section :=
  { hdr := { name := ".text", shtype := 1, flags := 0, addr := 0,
             offset := 64, size := 16, link := 0, info := 0,
             addralign := 0, entsize := 0 },
    data := [0, 0, 0, 0, 3, 0, 0, 0, 0, 0, 0, 0, 0, 0, 0, 0] }

/-- The decode of `fxB`. -/
def fileB : File :=
  { hdr := { class_ := 2, data := 1, version := 1, os_abi := 0,
             abi_version := 0, elf_type := 2, machine := 62,
             entrypoint := 0 },
    sections := [("", secB0), (".text", secB1)] }

/-- A 64-bit little-endian input, 128 bytes long, with one section whose
declared offset is 128 (the end of the stream) and declared size is 5:
the declared range lies entirely past the end of the input. -/
def fxC1 : List Nat :=
  ([127, 69, 76, 70, 2, 1, 1, 0, 0, 0, 0, 0, 0, 0, 0, 0] ++
   le2 2 ++ le2 62 ++ le4 1 ++
   le8 0 ++ le8 0 ++ le8 64 ++
   le4 0 ++ le2 64 ++ le2 56 ++ le2 0 ++ le2 64 ++ le2 1 ++ le2 0) ++
  (le4 0 ++ le4 1 ++ le8 0 ++ le8 0 ++ le8 128 ++ le8 5 ++
   le4 0 ++ le4 0 ++ le8 0 ++ le8 0)

/-- The single section of `fxC1` as decoded: declared size 5, empty
payload. -/
def secC1 : Section :=
  { hdr := { name := "", shtype := 1, flags := 0, addr := 0, offset := 128,
             size := 5, link := 0, info := 0, addralign := 0, entsize := 0 },
    data := [] }

/-- The decode of `fxC1`: it succeeds, with a truncated payload. -/
def fileC1 : File :=
  { hdr := { class_ := 2, data := 1, version := 1, os_abi := 0,
             abi_version := 0, elf_type := 2, machine := 62,
             entrypoint := 0 },
    sections := [("", secC1)] }

/-- Like `fxB` but the string-table payload is `"\x00.text"` (size 6, no
terminating zero byte after `.text`). -/
def fxC2 : List Nat :=
  ([127, 69, 76, 70, 2, 1, 1, 0, 0, 0, 0, 0, 0, 0, 0, 0] ++
   le2 2 ++ le2 62 ++ le4 1 ++
   le8 0 ++ le8 0 ++ le8 64 ++
   le4 0 ++ le2 64 ++ le2 56 ++ le2 0 ++ le2 64 ++ le2 2 ++ le2 0) ++
  (le4 0 ++ le4 3 ++ le8 0 ++ le8 0 ++ le8 192 ++ le8 6 ++
   le4 0 ++ le4 0 ++ le8 0 ++ le8 0) ++
  (le4 1 ++ le4 1 ++ le8 0 ++ le8 0 ++ le8 64 ++ le8 16 ++
   le4 0 ++ le4 0 ++ le8 0 ++ le8 0) ++
  [0, 46, 116, 101, 120, 116]

/-- A 64-bit little-endian input with one section and `shstrndx = 5`,
pointing past the single-entry section table. -/
def fxC4 : List Nat :=
  ([127, 69, 76, 70, 2, 1, 1, 0, 0, 0, 0, 0, 0, 0, 0, 0] ++
   le2 2 ++ le2 62 ++ le4 1 ++
   le8 0 ++ le8 0 ++ le8 64 ++
   le4 0 ++ le2 64 ++ le2 56 ++ le2 0 ++ le2 64 ++ le2 1 ++ le2 5) ++
  (le4 0 ++ le4 1 ++ le8 0 ++ le8 0 ++ le8 0 ++ le8 0 ++
   le4 0 ++ le4 0 ++ le8 0 ++ le8 0)

/-- A byte source whose `seek` fails (with an underlying device error) for
one specific target offset and behaves like the in-memory cursor otherwise.
This is a legitimate instance of the `io::Read + io::Seek` bound of
`File::parse`. -/
structure SeekFaulty where
  cur : Cursor
  failAt : Nat
deriving DecidableEq

/-- Reader operations of `SeekFaulty`: a seek to the distinguished offset
returns a device error and leaves the state unchanged; everything else
delegates to the cursor. -/
def seekFaultyOps : ReaderOps SeekFaulty where
  seek s n :=
    if n = s.failAt then (.error (.device 7), s)
    else (.ok (), { s with cur := { s.cur with pos := n } })
  readUpTo s n :=
    match cursorOps.readUpTo s.cur n with
    | (res, c) => (res, { s with cur := c })
  readExact s n :=
    match cursorOps.readExact s.cur n with
    | (res, c) => (res, { s with cur := c })
  readByte s :=
    match cursorOps.readByte s.cur with
    | (res, c) => (res, { s with cur := c })

/-- Padding of a short identification read: keeping only the first 16 slots
of the read bytes followed by the zero-initialised buffer equals the read
bytes followed by zeros in the unfilled slots. -/
lemma take_pad_eq (bs : List Nat) (h : bs.length ≤ 16) :
    (bs ++ List.replicate 16 0).take 16 =
      bs ++ List.replicate (16 - bs.length) 0 := by
  rw [List.take_append_eq_append_take, List.take_of_length_le h,
    List.take_replicate]
  have hm : min (16 - bs.length) 16 = 16 - bs.length := by omega
  rw [hm]

/-- Claim C5: each malformed-input condition aborts the decode at its point
of detection with its distinct error and no File is produced.  First, an
input whose first four bytes differ from the magic constant fails with
"invalid magic number" whatever the remaining bytes hold; second, with
valid magic and a recognized data encoding, a class byte other than the two
recognized values fails with "invalid class" whatever follows; third, with
valid magic and an unrecognized data-encoding byte the decode fails with
"invalid endianness" whatever follows; fourth, every multi-byte primitive
read fails with the invalid-encoding error under an unrecognized
data-encoding tag, for every reader.  No default is guessed anywhere. -/
theorem claim5_malformed_errors :
    (∀ (i0 i1 i2 i3 i4 i5 i6 i7 i8 i9 i10 i11 i12 i13 i14 i15 : Nat)
        (rest : List Nat), [i0, i1, i2, i3] ≠ ELFMAG →
        parse cursorOps { bytes := [i0, i1, i2, i3, i4, i5, i6, i7, i8, i9,
            i10, i11, i12, i13, i14, i15] ++ rest, pos := 0 } =
          .error (.ioErr (.other "invalid magic number")))
    ∧ (∀ (cls dat x6 x7 x8 t0 t1 m0 m1 v0 v1 v2 v3 : Nat) (rest : List Nat),
        cls ≠ ELFCLASS32 → cls ≠ ELFCLASS64 →
        (dat = ELFDATA2LSB ∨ dat = ELFDATA2MSB) →
        parse cursorOps { bytes := ELFMAG ++
            [cls, dat, x6, x7, x8, 0, 0, 0, 0, 0, 0, 0] ++
            [t0, t1, m0, m1, v0, v1, v2, v3] ++ rest, pos := 0 } =
          .error (.ioErr (.other "invalid class")))
    ∧ (∀ (cls dat x6 x7 x8 : Nat) (rest : List Nat),
        dat ≠ ELFDATA2LSB → dat ≠ ELFDATA2MSB →
        parse cursorOps { bytes := ELFMAG ++
            [cls, dat, x6, x7, x8, 0, 0, 0, 0, 0, 0, 0] ++ rest, pos := 0 } =
          .error (.ioErr (.other "invalid endianness")))
    ∧ (∀ (σ : Type) (ops : ReaderOps σ) (dat : Nat) (r : σ),
        dat ≠ ELFDATA2LSB → dat ≠ ELFDATA2MSB →
        readU16 ops dat r = (.error (.other "invalid endianness"), r)
        ∧ readU32 ops dat r = (.error (.other "invalid endianness"), r)
        ∧ readU64 ops dat r = (.error (.other "invalid endianness"), r)) := by
  refine ⟨?_, ?_, ?_, ?_⟩
  · intro i0 i1 i2 i3 i4 i5 i6 i7 i8 i9 i10 i11 i12 i13 i14 i15 rest h
    simp [parse, parseEhdr, parseWithIdent, cursorOps, EI_NIDENT, h]
  · intro cls dat x6 x7 x8 t0 t1 m0 m1 v0 v1 v2 v3 rest h1 h2 hd
    simp only [ELFCLASS32, ELFCLASS64] at h1 h2
    rcases hd with rfl | rfl <;>
      simp [parse, parseEhdr, parseWithIdent, readAddrs, readU16, readU32,
        cursorOps, EI_NIDENT, ELFMAG, ELFCLASS32, ELFCLASS64, ELFDATA2LSB,
        ELFDATA2MSB, EI_CLASS, EI_DATA, EI_OSABI, EI_ABIVERSION, liftE,
        h1, h2, bind, Except.bind]
  · intro cls dat x6 x7 x8 rest h1 h2
    simp only [ELFDATA2LSB, ELFDATA2MSB] at h1 h2
    simp [parse, parseEhdr, parseWithIdent, readU16, cursorOps, EI_NIDENT,
      ELFMAG, ELFDATA2LSB, ELFDATA2MSB, EI_CLASS, EI_DATA, EI_OSABI,
      EI_ABIVERSION, liftE, h1, h2, bind, Except.bind]
  · intro σ ops dat r h1 h2
    refine ⟨?_, ?_, ?_⟩ <;> simp [readU16, readU32, readU64, h1, h2]

/-- Witness for claim C5 at concrete inputs: an all-zero identification
block fails with the magic error, class byte 9 fails with the class error,
data-encoding byte 9 fails with the endianness error, and the 16-bit
primitive read fails under tag 9 on the in-memory reader. -/
theorem claim5_malformed_errors_witness :
    parse cursorOps
      { bytes := [0, 0, 0, 0, 0, 0, 0, 0, 0, 0, 0, 0, 0, 0, 0, 0] ++ [],
        pos := 0 } =
      .error (.ioErr (.other "invalid magic number"))
    ∧ parse cursorOps { bytes := ELFMAG ++
        [9, 1, 0, 0, 0, 0, 0, 0, 0, 0, 0, 0] ++
        [0, 0, 0, 0, 0, 0, 0, 0] ++ [], pos := 0 } =
      .error (.ioErr (.other "invalid class"))
    ∧ parse cursorOps { bytes := ELFMAG ++
        [1, 9, 0, 0, 0, 0, 0, 0, 0, 0, 0, 0] ++ [], pos := 0 } =
      .error (.ioErr (.other "invalid endianness"))
    ∧ readU16 cursorOps 9 { bytes := [], pos := 0 } =
      (.error (.other "invalid endianness"), { bytes := [], pos := 0 }) :=
  ⟨claim5_malformed_errors.1 0 0 0 0 0 0 0 0 0 0 0 0 0 0 0 0 [] (by decide),
   claim5_malformed_errors.2.1 9 1 0 0 0 0 0 0 0 0 0 0 0 []
     (by decide) (by decide) (Or.inl rfl),
   claim5_malformed_errors.2.2.1 1 9 0 0 0 [] (by decide) (by decide),
   (claim5_malformed_errors.2.2.2 Cursor cursorOps 9 { bytes := [], pos := 0 }
     (by decide) (by decide)).1⟩

/-- Counterexample to claim C3: a byte source whose seek to absolute offset
0 fails with a device error.  The decode performs that seek (line 71 of
`file.rs`) and the underlying source reports failure, yet `parse` discards
the result of that call and returns a fully decoded File: the seek failure
is not propagated as the returned error of the decode. -/
theorem claim3_counterexample :
    (seekFaultyOps.seek { cur := { bytes := fx0, pos := 0 }, failAt := 0 } 0
      = (.error (.device 7), { cur := { bytes := fx0, pos := 0 },
                               failAt := 0 }))
    ∧ parse seekFaultyOps { cur := { bytes := fx0, pos := 0 }, failAt := 0 }
      = .ok file0 :=
  ⟨rfl, rfl⟩

/-- Claim C3 as amended: every error of the header-field phase is
propagated unchanged; a seek failure on the seek to the section-header
table is propagated unchanged; the exact-width primitive reads propagate
the underlying read error unchanged for both recognized encodings; a seek
failure on a section-offset seek is propagated unchanged by the payload
phase.  (The initial seek to offset 0 is excluded: its result is
discarded, as the counterexample shows; and an I/O error during a section
payload read surfaces as a panic, not as the returned error.) -/
theorem claim3_amended_propagation :
    (∀ (σ : Type) (ops : ReaderOps σ) (r : σ) (e : PErr),
        parseEhdr ops r = .error e → parse ops r = .error e)
    ∧ (∀ (σ : Type) (ops : ReaderOps σ) (r r1 rX : σ) (e : Ehdr)
        (err : IOErr), parseEhdr ops r = .ok (e, r1) →
        ops.seek r1 e.shoff = (.error err, rX) →
        parse ops r = .error (.ioErr err))
    ∧ (∀ (σ : Type) (ops : ReaderOps σ) (dat : Nat) (r rX : σ)
        (err : IOErr), (dat = ELFDATA2LSB ∨ dat = ELFDATA2MSB) →
        (ops.readExact r 2 = (.error err, rX) →
          readU16 ops dat r = (.error err, rX))
        ∧ (ops.readExact r 4 = (.error err, rX) →
          readU32 ops dat r = (.error err, rX))
        ∧ (ops.readExact r 8 = (.error err, rX) →
          readU64 ops dat r = (.error err, rX)))
    ∧ (∀ (σ : Type) (ops : ReaderOps σ) (sh : SectionHeader)
        (rest : List SectionHeader) (r rX : σ) (err : IOErr),
        ops.seek r sh.offset = (.error err, rX) →
        readDatas ops (sh :: rest) r = .error (.ioErr err))
    ∧ (∀ (σ : Type) (ops : ReaderOps σ) (n : Nat) (r rX : σ) (err : IOErr),
        ops.readByte r = (.error err, rX) →
        readUpToBytes ops (n + 1) r = .error (.fatal "unwrap on io error")) := by
  refine ⟨?_, ?_, ?_, ?_, ?_⟩
  · intro σ ops r e h
    simp [parse, h]
  · intro σ ops r r1 rX e err h1 h2
    simp [parse, h1, h2]
  · intro σ ops dat r rX err hd
    rcases hd with rfl | rfl <;>
      exact ⟨fun h => by simp [readU16, ELFDATA2LSB, ELFDATA2MSB, h],
             fun h => by simp [readU32, ELFDATA2LSB, ELFDATA2MSB, h],
             fun h => by simp [readU64, ELFDATA2LSB, ELFDATA2MSB, h]⟩
  · intro σ ops sh rest r rX err h
    simp [readDatas, h]
  · intro σ ops n r rX err h
    simp [readUpToBytes, h]

/-- Witness for the amended claim C3: the empty input makes the header
phase fail with the magic error, and `parse` returns exactly that error. -/
theorem claim3_amended_propagation_witness :
    parse cursorOps { bytes := [], pos := 0 } =
      .error (.ioErr (.other "invalid magic number")) :=
  claim3_amended_propagation.1 Cursor cursorOps { bytes := [], pos := 0 }
    (.ioErr (.other "invalid magic number")) rfl

/-- Claim C10: the identification read does not verify how many bytes were
obtained.  If the single `read` call returns fewer than 16 bytes with no
error, the decode continues into the header phase with the unfilled
identification bytes still zero — no I/O error is raised at the
identification step.  Concretely, an input holding only the four magic
bytes proceeds past the magic check and fails only later, with the
malformed-input error for its (zero) data-encoding byte, and the empty
input fails with the malformed-input magic error — neither yields a
short-read error. -/
theorem claim10_short_ident_read :
    (∀ (σ : Type) (ops : ReaderOps σ) (r r0 r1 : σ)
        (sres : Except IOErr Unit) (bs : List Nat),
        ops.seek r 0 = (sres, r0) →
        ops.readUpTo r0 EI_NIDENT = (.ok bs, r1) →
        bs.length < 16 →
        parseEhdr ops r =
          parseWithIdent ops (bs ++ List.replicate (16 - bs.length) 0) r1)
    ∧ parse cursorOps { bytes := [127, 69, 76, 70], pos := 0 } =
        .error (.ioErr (.other "invalid endianness"))
    ∧ parse cursorOps { bytes := [], pos := 0 } =
        .error (.ioErr (.other "invalid magic number")) := by
  refine ⟨?_, rfl, rfl⟩
  intro σ ops r r0 r1 sres bs h1 h2 h3
  simp only [EI_NIDENT] at h2
  simp only [parseEhdr, EI_NIDENT, h1, h2]
  rw [take_pad_eq bs (Nat.le_of_lt h3)]

/-- Witness for claim C10: a four-byte source (just the magic bytes) seen
through the in-memory reader satisfies its hypotheses, so the header phase
equals the continuation on the zero-padded identification block. -/
theorem claim10_short_ident_read_witness :
    parseEhdr cursorOps { bytes := [127, 69, 76, 70], pos := 0 } =
      parseWithIdent cursorOps
        ([127, 69, 76, 70] ++ List.replicate (16 - 4) 0)
        { bytes := [127, 69, 76, 70], pos := 4 } := by
  have h := claim10_short_ident_read.1 Cursor cursorOps
    { bytes := [127, 69, 76, 70], pos := 0 }
    { bytes := [127, 69, 76, 70], pos := 0 }
    { bytes := [127, 69, 76, 70], pos := 4 }
    (.ok ()) [127, 69, 76, 70] rfl rfl (by decide)
  simpa using h

/-- Claim C7: for every valid input (any recognized data encoding, any byte
values in the header fields, any trailing bytes), the FileHeader of the
decoded File carries class, data encoding, object type, machine and entry
point exactly equal to the values encoded by the literal bytes at their
fixed positions, interpreted under the discovered byte order: class and
encoding are the identification bytes at offsets 4 and 5, the type is the
16-bit field at offset 16, the machine the 16-bit field at offset 18, and
the entry point the 64-bit field at offset 24 under class 64 (first
conjunct) or the 32-bit field at offset 24 under class 32 (second
conjunct).  The fixtures use `shnum = 0` so the whole decode succeeds. -/
theorem claim7_header_literal_bytes :
    (∀ (dat x6 x7 x8 p9 p10 p11 p12 p13 p14 p15 t0 t1 m0 m1 v0 v1 v2 v3
        e0 e1 e2 e3 e4 e5 e6 e7 q0 q1 q2 q3 q4 q5 q6 q7
        s0 s1 s2 s3 s4 s5 s6 s7 f0 f1 f2 f3 a0 a1 b0 b1 c0 c1 d0 d1
        g0 g1 : Nat) (rest : List Nat),
        (dat = ELFDATA2LSB ∨ dat = ELFDATA2MSB) →
        parse cursorOps (Cursor.mk (ELFMAG ++
            [2, dat, x6, x7, x8, p9, p10, p11, p12, p13, p14, p15] ++
            [t0, t1, m0, m1, v0, v1, v2, v3] ++
            [e0, e1, e2, e3, e4, e5, e6, e7] ++
            [q0, q1, q2, q3, q4, q5, q6, q7] ++
            [s0, s1, s2, s3, s4, s5, s6, s7] ++ [f0, f1, f2, f3] ++
            [a0, a1, b0, b1, c0, c1, d0, d1, 0, 0, g0, g1] ++ rest) 0) =
          .ok { hdr := { class_ := 2, data := dat,
                         version := endVal dat [v0, v1, v2, v3],
                         os_abi := x7, abi_version := x8,
                         elf_type := endVal dat [t0, t1],
                         machine := endVal dat [m0, m1],
                         entrypoint :=
                           endVal dat [e0, e1, e2, e3, e4, e5, e6, e7] },
                sections := [] })
    ∧ (∀ (dat x6 x7 x8 p9 p10 p11 p12 p13 p14 p15 t0 t1 m0 m1 v0 v1 v2 v3
        e0 e1 e2 e3 q0 q1 q2 q3 s0 s1 s2 s3 f0 f1 f2 f3
        a0 a1 b0 b1 c0 c1 d0 d1 g0 g1 : Nat) (rest : List Nat),
        (dat = ELFDATA2LSB ∨ dat = ELFDATA2MSB) →
        parse cursorOps (Cursor.mk (ELFMAG ++
            [1, dat, x6, x7, x8, p9, p10, p11, p12, p13, p14, p15] ++
            [t0, t1, m0, m1, v0, v1, v2, v3] ++
            [e0, e1, e2, e3] ++ [q0, q1, q2, q3] ++ [s0, s1, s2, s3] ++
            [f0, f1, f2, f3] ++
            [a0, a1, b0, b1, c0, c1, d0, d1, 0, 0, g0, g1] ++ rest) 0) =
          .ok { hdr := { class_ := 1, data := dat,
                         version := endVal dat [v0, v1, v2, v3],
                         os_abi := x7, abi_version := x8,
                         elf_type := endVal dat [t0, t1],
                         machine := endVal dat [m0, m1],
                         entrypoint := endVal dat [e0, e1, e2, e3] },
                sections := [] }) := by
  constructor
  · intro dat x6 x7 x8 p9 p10 p11 p12 p13 p14 p15 t0 t1 m0 m1 v0 v1 v2 v3
      e0 e1 e2 e3 e4 e5 e6 e7 q0 q1 q2 q3 q4 q5 q6 q7
      s0 s1 s2 s3 s4 s5 s6 s7 f0 f1 f2 f3 a0 a1 b0 b1 c0 c1 d0 d1
      g0 g1 rest hd
    rcases hd with rfl | rfl <;>
      simp [parse, parseEhdr, parseWithIdent, readAddrs, readU16, readU32,
        readU64, cursorOps, liftE, bind, Except.bind, endVal, leNat, beNat,
        EI_NIDENT, ELFMAG, ELFCLASS32, ELFCLASS64, ELFDATA2LSB, ELFDATA2MSB,
        EI_CLASS, EI_DATA, EI_OSABI, EI_ABIVERSION,
        readSectionHeaders, readDatas, resolveNames, resolveGo, assemble,
        hashInsertAll]
  · intro dat x6 x7 x8 p9 p10 p11 p12 p13 p14 p15 t0 t1 m0 m1 v0 v1 v2 v3
      e0 e1 e2 e3 q0 q1 q2 q3 s0 s1 s2 s3 f0 f1 f2 f3 a0 a1 b0 b1 c0 c1
      d0 d1 g0 g1 rest hd
    rcases hd with rfl | rfl <;>
      simp [parse, parseEhdr, parseWithIdent, readAddrs, readU16, readU32,
        readU64, cursorOps, liftE, bind, Except.bind, endVal, leNat, beNat,
        EI_NIDENT, ELFMAG, ELFCLASS32, ELFCLASS64, ELFDATA2LSB, ELFDATA2MSB,
        EI_CLASS, EI_DATA, EI_OSABI, EI_ABIVERSION,
        readSectionHeaders, readDatas, resolveNames, resolveGo, assemble,
        hashInsertAll]

/-- Witness for claim C7: the `fx0` fixture (little-endian, class 64, type
2, machine 62, entry point 0x400000) instantiates the first conjunct. -/
theorem claim7_header_literal_bytes_witness :
    parse cursorOps (Cursor.mk (ELFMAG ++
        [2, 1, 1, 0, 0, 0, 0, 0, 0, 0, 0, 0] ++
        [2, 0, 62, 0, 1, 0, 0, 0] ++
        [0, 0, 64, 0, 0, 0, 0, 0] ++
        [0, 0, 0, 0, 0, 0, 0, 0] ++
        [64, 0, 0, 0, 0, 0, 0, 0] ++ [0, 0, 0, 0] ++
        [64, 0, 56, 0, 0, 0, 64, 0, 0, 0, 0, 0] ++ []) 0) =
      .ok { hdr := { class_ := 2, data := 1,
                     version := endVal 1 [1, 0, 0, 0],
                     os_abi := 0, abi_version := 0,
                     elf_type := endVal 1 [2, 0],
                     machine := endVal 1 [62, 0],
                     entrypoint := endVal 1 [0, 0, 64, 0, 0, 0, 0, 0] },
            sections := [] } :=
  claim7_header_literal_bytes.1 1 1 0 0 0 0 0 0 0 0 0 2 0 62 0 1 0 0 0
    0 0 64 0 0 0 0 0 0 0 0 0 0 0 0 0 64 0 0 0 0 0 0 0 0 0 0 0
    64 0 56 0 0 0 64 0 0 0 [] (Or.inl rfl)

/-- Claim C6: under class 32, the entry point, program-header offset and
section-header offset (first conjunct, header phase), and each section
header's flags, address, file offset, size, alignment and entry size
(second conjunct, one section-header record), are read as 32-bit values and
stored unchanged in the 64-bit fields: the stored value is exactly the
value of the four bytes read (`endVal`), and — third conjunct — any
four-byte value is below 2^32, so the stored value is the zero-extension of
the 32-bit value, with no sign extension and no truncation. -/
theorem claim6_class32_zero_extension :
    (∀ (dat x6 x7 x8 p9 p10 p11 p12 p13 p14 p15 t0 t1 m0 m1 v0 v1 v2 v3
        e0 e1 e2 e3 q0 q1 q2 q3 s0 s1 s2 s3 f0 f1 f2 f3
        a0 a1 b0 b1 c0 c1 d0 d1 n0 n1 g0 g1 : Nat) (rest : List Nat),
        (dat = ELFDATA2LSB ∨ dat = ELFDATA2MSB) →
        parseEhdr cursorOps (Cursor.mk (ELFMAG ++
            [1, dat, x6, x7, x8, p9, p10, p11, p12, p13, p14, p15] ++
            [t0, t1, m0, m1, v0, v1, v2, v3] ++
            [e0, e1, e2, e3] ++ [q0, q1, q2, q3] ++ [s0, s1, s2, s3] ++
            [f0, f1, f2, f3] ++
            [a0, a1, b0, b1, c0, c1, d0, d1, n0, n1, g0, g1] ++ rest) 0) =
          .ok ({ class_ := 1, data := dat, os_abi := x7, abi_version := x8,
                 elf_type := endVal dat [t0, t1],
                 machine := endVal dat [m0, m1],
                 version := endVal dat [v0, v1, v2, v3],
                 entry := endVal dat [e0, e1, e2, e3],
                 phoff := endVal dat [q0, q1, q2, q3],
                 shoff := endVal dat [s0, s1, s2, s3],
                 flags := endVal dat [f0, f1, f2, f3],
                 ehsize := endVal dat [a0, a1],
                 phentsize := endVal dat [b0, b1],
                 phnum := endVal dat [c0, c1],
                 shentsize := endVal dat [d0, d1],
                 shnum := endVal dat [n0, n1],
                 shstrndx := endVal dat [g0, g1] },
               Cursor.mk (ELFMAG ++
            [1, dat, x6, x7, x8, p9, p10, p11, p12, p13, p14, p15] ++
            [t0, t1, m0, m1, v0, v1, v2, v3] ++
            [e0, e1, e2, e3] ++ [q0, q1, q2, q3] ++ [s0, s1, s2, s3] ++
            [f0, f1, f2, f3] ++
            [a0, a1, b0, b1, c0, c1, d0, d1, n0, n1, g0, g1] ++ rest) 52))
    ∧ (∀ (dat n0 n1 n2 n3 w0 w1 w2 w3 g0 g1 g2 g3 a0 a1 a2 a3
        o0 o1 o2 o3 z0 z1 z2 z3 l0 l1 l2 l3 i0 i1 i2 i3
        y0 y1 y2 y3 u0 u1 u2 u3 : Nat) (rest : List Nat),
        (dat = ELFDATA2LSB ∨ dat = ELFDATA2MSB) →
        readSectionHeader cursorOps dat 1 (Cursor.mk (
            [n0, n1, n2, n3, w0, w1, w2, w3] ++
            [g0, g1, g2, g3] ++ [a0, a1, a2, a3] ++ [o0, o1, o2, o3] ++
            [z0, z1, z2, z3] ++ [l0, l1, l2, l3] ++ [i0, i1, i2, i3] ++
            [y0, y1, y2, y3] ++ [u0, u1, u2, u3] ++ rest) 0) =
          .ok ((endVal dat [n0, n1, n2, n3],
                { name := "", shtype := endVal dat [w0, w1, w2, w3],
                  flags := endVal dat [g0, g1, g2, g3],
                  addr := endVal dat [a0, a1, a2, a3],
                  offset := endVal dat [o0, o1, o2, o3],
                  size := endVal dat [z0, z1, z2, z3],
                  link := endVal dat [l0, l1, l2, l3],
                  info := endVal dat [i0, i1, i2, i3],
                  addralign := endVal dat [y0, y1, y2, y3],
                  entsize := endVal dat [u0, u1, u2, u3] }),
               Cursor.mk (
            [n0, n1, n2, n3, w0, w1, w2, w3] ++
            [g0, g1, g2, g3] ++ [a0, a1, a2, a3] ++ [o0, o1, o2, o3] ++
            [z0, z1, z2, z3] ++ [l0, l1, l2, l3] ++ [i0, i1, i2, i3] ++
            [y0, y1, y2, y3] ++ [u0, u1, u2, u3] ++ rest) 40))
    ∧ (∀ (dat b0 b1 b2 b3 : Nat), b0 < 256 → b1 < 256 → b2 < 256 →
        b3 < 256 → endVal dat [b0, b1, b2, b3] < 4294967296) := by
  refine ⟨?_, ?_, ?_⟩
  · intro dat x6 x7 x8 p9 p10 p11 p12 p13 p14 p15 t0 t1 m0 m1 v0 v1 v2 v3
      e0 e1 e2 e3 q0 q1 q2 q3 s0 s1 s2 s3 f0 f1 f2 f3
      a0 a1 b0 b1 c0 c1 d0 d1 n0 n1 g0 g1 rest hd
    rcases hd with rfl | rfl <;>
      simp [parseEhdr, parseWithIdent, readAddrs, readU16, readU32, readU64,
        cursorOps, liftE, bind, Except.bind, endVal, leNat, beNat,
        EI_NIDENT, ELFMAG, ELFCLASS32, ELFCLASS64, ELFDATA2LSB, ELFDATA2MSB,
        EI_CLASS, EI_DATA, EI_OSABI, EI_ABIVERSION]
  · intro dat n0 n1 n2 n3 w0 w1 w2 w3 g0 g1 g2 g3 a0 a1 a2 a3
      o0 o1 o2 o3 z0 z1 z2 z3 l0 l1 l2 l3 i0 i1 i2 i3
      y0 y1 y2 y3 u0 u1 u2 u3 rest hd
    rcases hd with rfl | rfl <;>
      simp [readSectionHeader, readU32, readU64, cursorOps, liftE, bind,
        Except.bind, endVal, leNat, beNat, ELFCLASS32, ELFCLASS64,
        ELFDATA2LSB, ELFDATA2MSB]
  · intro dat b0 b1 b2 b3 h0 h1 h2 h3
    unfold endVal
    split <;> simp [leNat, beNat] <;> omega

/-- Witness for claim C6: concrete little-endian class-32 inputs, with the
high bit of each widened field set (byte value 255) to exhibit the absence
of sign extension: the stored values stay below 2^32. -/
theorem claim6_class32_zero_extension_witness :
    parseEhdr cursorOps (Cursor.mk (ELFMAG ++
        [1, 1, 0, 0, 0, 0, 0, 0, 0, 0, 0, 0] ++
        [2, 0, 3, 0, 1, 0, 0, 0] ++
        [0, 0, 0, 255] ++ [52, 0, 0, 0] ++ [52, 0, 0, 0] ++
        [0, 0, 0, 0] ++
        [52, 0, 40, 0, 0, 0, 40, 0, 0, 0, 0, 0] ++ []) 0) =
      .ok ({ class_ := 1, data := 1, os_abi := 0, abi_version := 0,
             elf_type := endVal 1 [2, 0], machine := endVal 1 [3, 0],
             version := endVal 1 [1, 0, 0, 0],
             entry := endVal 1 [0, 0, 0, 255],
             phoff := endVal 1 [52, 0, 0, 0],
             shoff := endVal 1 [52, 0, 0, 0],
             flags := endVal 1 [0, 0, 0, 0],
             ehsize := endVal 1 [52, 0], phentsize := endVal 1 [40, 0],
             phnum := endVal 1 [0, 0], shentsize := endVal 1 [40, 0],
             shnum := endVal 1 [0, 0], shstrndx := endVal 1 [0, 0] },
           Cursor.mk (ELFMAG ++
        [1, 1, 0, 0, 0, 0, 0, 0, 0, 0, 0, 0] ++
        [2, 0, 3, 0, 1, 0, 0, 0] ++
        [0, 0, 0, 255] ++ [52, 0, 0, 0] ++ [52, 0, 0, 0] ++
        [0, 0, 0, 0] ++
        [52, 0, 40, 0, 0, 0, 40, 0, 0, 0, 0, 0] ++ []) 52)
    ∧ endVal 1 [0, 0, 0, 255] < 4294967296 :=
  ⟨claim6_class32_zero_extension.1 1 0 0 0 0 0 0 0 0 0 0 2 0 3 0 1 0 0 0
     0 0 0 255 52 0 0 0 52 0 0 0 0 0 0 0
     52 0 40 0 0 0 40 0 0 0 0 0 [] (Or.inl rfl),
   claim6_class32_zero_extension.2.2 1 0 0 0 255 (by decide) (by decide)
     (by decide) (by decide)⟩

/-- The first section loop produces exactly `n` name offsets and `n`
headers. -/
lemma readSectionHeaders_len {σ : Type} (ops : ReaderOps σ)
    (data class_ : Nat) :
    ∀ (n : Nat) (r : σ) (idxs : List Nat) (shs : List SectionHeader)
      (r' : σ),
      readSectionHeaders ops data class_ n r = .ok ((idxs, shs), r') →
      idxs.length = n ∧ shs.length = n := by
  intro n
  induction n with
  | zero =>
      intro r idxs shs r' h
      simp [readSectionHeaders] at h
      obtain ⟨⟨h1, h2⟩, _⟩ := h
      simp [← h1, ← h2]
  | succ n ih =>
      intro r idxs shs r' h
      rw [readSectionHeaders] at h
      cases hrs : readSectionHeader ops data class_ r with
      | error e => rw [hrs] at h; simp [bind, Except.bind] at h
      | ok v =>
          obtain ⟨⟨idx, sh⟩, r1⟩ := v
          rw [hrs] at h
          simp only [bind, Except.bind] at h
          cases hrec : readSectionHeaders ops data class_ n r1 with
          | error e => rw [hrec] at h; simp at h
          | ok w =>
              obtain ⟨⟨idxs0, shs0⟩, r2⟩ := w
              rw [hrec] at h
              simp only [Except.ok.injEq, Prod.mk.injEq] at h
              obtain ⟨⟨h1, h2⟩, _⟩ := h
              obtain ⟨hl1, hl2⟩ := ih r1 idxs0 shs0 r2 hrec
              simp [← h1, ← h2, hl1, hl2]

/-- The second section loop produces one payload per header. -/
lemma readDatas_len {σ : Type} (ops : ReaderOps σ) :
    ∀ (shs : List SectionHeader) (r : σ) (datas : List (List Nat)) (r' : σ),
      readDatas ops shs r = .ok (datas, r') →
      datas.length = shs.length := by
  intro shs
  induction shs with
  | nil =>
      intro r datas r' h
      simp [readDatas] at h
      simp [← h.1]
  | cons sh rest ih =>
      intro r datas r' h
      rw [readDatas] at h
      cases hseek : ops.seek r sh.offset with
      | mk res r1 =>
          rw [hseek] at h
          cases res with
          | error e => simp at h
          | ok u =>
              simp only [bind, Except.bind] at h
              cases hrb : readUpToBytes ops sh.size r1 with
              | error e => rw [hrb] at h; simp at h
              | ok v =>
                  obtain ⟨d, r2⟩ := v
                  rw [hrb] at h
                  dsimp only at h
                  cases hrec : readDatas ops rest r2 with
                  | error e => rw [hrec] at h; simp at h
                  | ok w =>
                      obtain ⟨ds, r3⟩ := w
                      rw [hrec] at h
                      simp only [Except.ok.injEq, Prod.mk.injEq] at h
                      obtain ⟨h1, _⟩ := h
                      have := ih r2 ds r3 hrec
                      simp [← h1, this]

/-- Evaluation of the cursor seek operation. -/
lemma cursorOps_seek (c : Cursor) (n : Nat) :
    cursorOps.seek c n = (.ok (), Cursor.mk c.bytes n) := rfl

/-- Claim C4: if the header phase and the section-header phase succeed with
at least one section and a string-table index at or past the section count,
the decode fails with the out-of-range indexing error (the Rust panic
"index out of bounds" raised before any unrelated memory is read), and no
File is produced. -/
theorem claim4_strtab_index_out_of_range
    (c c1 c2 c3 : Cursor) (e : Ehdr) (idxs : List Nat)
    (shs : List SectionHeader) (datas : List (List Nat))
    (h1 : parseEhdr cursorOps c = .ok (e, c1))
    (h2 : readSectionHeaders cursorOps e.data e.class_ e.shnum
            (Cursor.mk c1.bytes e.shoff) = .ok ((idxs, shs), c2))
    (h3 : readDatas cursorOps shs c2 = .ok (datas, c3))
    (h4 : 1 ≤ e.shnum) (h5 : e.shnum ≤ e.shstrndx) :
    parse cursorOps c = .error (.fatal "index out of bounds") := by
  have hdl : datas.length = e.shnum := by
    rw [readDatas_len cursorOps shs c2 datas c3 h3,
      (readSectionHeaders_len cursorOps e.data e.class_ e.shnum
        (Cursor.mk c1.bytes e.shoff) idxs shs c2 h2).2]
  have hnone : datas.get? e.shstrndx = none := by
    rw [List.get?_eq_none]
    omega
  obtain ⟨k, hk⟩ : ∃ k, e.shnum = k + 1 := ⟨e.shnum - 1, by omega⟩
  simp only [parse, h1, cursorOps_seek, h2, h3, resolveNames]
  rw [hk]
  simp only [resolveGo, hnone]

/-- Witness for claim C4: `fxC4` declares one section and `shstrndx = 5`;
all phase hypotheses hold by computation and the decode fails with the
out-of-range indexing error. -/
theorem claim4_strtab_index_out_of_range_witness :
    parse cursorOps (Cursor.mk fxC4 0) =
      .error (.fatal "index out of bounds") :=
  claim4_strtab_index_out_of_range (Cursor.mk fxC4 0) (Cursor.mk fxC4 64)
    (Cursor.mk fxC4 128) (Cursor.mk fxC4 0)
    { class_ := 2, data := 1, os_abi := 0, abi_version := 0, elf_type := 2,
      machine := 62, version := 1, entry := 0, phoff := 0, shoff := 64,
      flags := 0, ehsize := 64, phentsize := 56, phnum := 0,
      shentsize := 64, shnum := 1, shstrndx := 5 }
    [0]
    [{ name := "", shtype := 1, flags := 0, addr := 0, offset := 0,
       size := 0, link := 0, info := 0, addralign := 0, entsize := 0 }]
    [[]]
    rfl rfl rfl (by decide) (by decide)

/-- If no byte of the scanned list is zero, the scan returns the initial
marker 0. -/
lemma scanZeroAux_no_zero :
    ∀ (l : List Nat) (i : Nat), (∀ b ∈ l, b ≠ 0) → scanZeroAux l i = 0 := by
  intro l
  induction l with
  | nil => intro i _; rfl
  | cons b rest ih =>
      intro i h
      have hb : b ≠ 0 := h b (List.mem_cons_self b rest)
      simp only [scanZeroAux, if_neg hb]
      exact ih (i + 1) (fun x hx => h x (List.mem_cons_of_mem b hx))

/-- If the scanned list splits as nonzero bytes followed by a zero byte,
the scan returns the index of that zero byte. -/
lemma scanZeroAux_split :
    ∀ (l1 l2 : List Nat) (i : Nat), (∀ b ∈ l1, b ≠ 0) →
      scanZeroAux (l1 ++ 0 :: l2) i = i + l1.length := by
  intro l1
  induction l1 with
  | nil => intro l2 i _; simp [scanZeroAux]
  | cons b rest ih =>
      intro l2 i h
      have hb : b ≠ 0 := h b (List.mem_cons_self b rest)
      simp only [List.cons_append, scanZeroAux, if_neg hb, List.append_eq]
      rw [ih l2 (i + 1) (fun x hx => h x (List.mem_cons_of_mem b hx))]
      simp [List.length_cons]
      omega

/-- Claim C2 as amended: the resolver scans the string-table payload
forward byte-by-byte from the raw name-offset; when a zero byte is found,
the resolved name is exactly the bytes between the offset and that first
zero byte (third conjunct).  When the end of the payload is reached
without a zero byte, the end marker keeps its initial value 0: with a
nonzero name-offset the usize subtraction underflows and the resolver
panics — the decode fails by panic instead of yielding the bytes up to
the payload boundary (first conjunct), and the name-resolution loop
propagates that panic (fourth conjunct) — while with name-offset 0 the
resolved name is the empty string and the decode continues (second
conjunct). -/
theorem claim2_name_scan_amended :
    (∀ (data : List Nat) (start : Nat),
        (∀ b ∈ data.drop start, b ≠ 0) → 1 ≤ start →
        get_elf_string data start = .error (.fatal "capacity overflow")
        ∧ scanZero data start = 0)
    ∧ (∀ data : List Nat, (∀ b ∈ data, b ≠ 0) →
        get_elf_string data 0 = .ok "")
    ∧ (∀ (data l1 l2 : List Nat) (start : Nat),
        data.drop start = l1 ++ 0 :: l2 → (∀ b ∈ l1, b ≠ 0) →
        get_elf_string data start =
          .ok (String.mk (l1.map (fun b => Char.ofNat b)))
        ∧ scanZero data start = start + l1.length)
    ∧ (∀ (fuel i shstrndx : Nat) (datas : List (List Nat))
        (idxs : List Nat) (shs : List SectionHeader) (strtab : List Nat)
        (idx : Nat) (er : PErr),
        datas.get? shstrndx = some strtab → idxs.get? i = some idx →
        get_elf_string strtab idx = .error er →
        resolveGo datas idxs shstrndx (fuel + 1) i shs = .error er) := by
  refine ⟨?_, ?_, ?_, ?_⟩
  · intro data start h hstart
    have hs : scanZero data start = 0 :=
      scanZeroAux_no_zero (data.drop start) start h
    refine ⟨?_, hs⟩
    rw [get_elf_string]
    simp only [hs]
    rw [if_pos (by omega)]
  · intro data h
    have hs : scanZero data 0 = 0 :=
      scanZeroAux_no_zero (data.drop 0) 0 (by simpa using h)
    rw [get_elf_string]
    simp only [hs]
    rw [if_neg (by omega)]
    rfl
  · intro data l1 l2 start hsplit h
    have hs : scanZero data start = start + l1.length := by
      rw [scanZero, hsplit]
      exact scanZeroAux_split l1 l2 start h
    refine ⟨?_, hs⟩
    rw [get_elf_string]
    simp only [hs]
    rw [if_neg (by omega), Nat.add_sub_cancel_left, hsplit,
      List.take_left]
  · intro fuel i shstrndx datas idxs shs strtab idx er h1 h2 h3
    simp only [resolveGo, h1, h2, h3]

/-- Witness for the amended claim C2: scanning `"\x00.text"` from offset 1
(no zero byte follows) panics with the underflow of the end marker;
scanning the all-nonzero payload `AB` from offset 0 yields the empty name
without failing; scanning `"\x00AB\x00C"` from offset 1 resolves the name
`AB`; and a resolution step on the no-terminator table propagates the
panic. -/
theorem claim2_name_scan_amended_witness :
    (get_elf_string [0, 46, 116, 101, 120, 116] 1 =
        .error (.fatal "capacity overflow")
      ∧ scanZero [0, 46, 116, 101, 120, 116] 1 = 0)
    ∧ get_elf_string [65, 66] 0 = .ok ""
    ∧ (get_elf_string [0, 65, 66, 0, 67] 1 =
        .ok (String.mk ([65, 66].map (fun b => Char.ofNat b)))
      ∧ scanZero [0, 65, 66, 0, 67] 1 = 1 + 2)
    ∧ resolveGo [[0, 46, 116, 101, 120, 116]] [1] 0 1 0
        [{ name := "x", shtype := 0, flags := 0, addr := 0, offset := 0,
           size := 0, link := 0, info := 0, addralign := 0,
           entsize := 0 }] = .error (.fatal "capacity overflow") :=
  ⟨claim2_name_scan_amended.1 [0, 46, 116, 101, 120, 116] 1 (by decide)
     (by decide),
   claim2_name_scan_amended.2.1 [65, 66] (by decide),
   claim2_name_scan_amended.2.2.1 [0, 65, 66, 0, 67] [65, 66] [67] 1
     (by decide) (by decide),
   claim2_name_scan_amended.2.2.2 0 0 0 [[0, 46, 116, 101, 120, 116]] [1]
     [{ name := "x", shtype := 0, flags := 0, addr := 0, offset := 0,
        size := 0, link := 0, info := 0, addralign := 0, entsize := 0 }]
     [0, 46, 116, 101, 120, 116] 1 (.fatal "capacity overflow")
     rfl rfl rfl⟩

/-- Counterexample to claim C2 as stated: decoding `fxC2`, whose
string-table payload is `"\x00.text"` with no terminating zero byte after
the `.text` bytes, does not leave the decode unfailed with the name taken
up to the payload boundary — the decode aborts with the underflow panic of
the resolver, and the resolver applied to that payload at offset 1 panics
instead of returning the boundary bytes (which spell `.text`). -/
theorem claim2_counterexample :
    parse cursorOps (Cursor.mk fxC2 0) = .error (.fatal "capacity overflow")
    ∧ get_elf_string [0, 46, 116, 101, 120, 116] 1 =
        .error (.fatal "capacity overflow")
    ∧ String.mk ([46, 116, 101, 120, 116].map (fun b => Char.ofNat b)) =
        ".text" :=
  ⟨rfl, rfl, rfl⟩

/-- A key occurs in the map after an insertion exactly when it is the
inserted key or was already present. -/
lemma hashInsert_mem_keys :
    ∀ (m : List (String × Section)) (k x : String) (v : Section),
      (x ∈ (hashInsert k v m).map Prod.fst ↔
        x = k ∨ x ∈ m.map Prod.fst) := by
  intro m
  induction m with
  | nil => intro k x v; simp [hashInsert]
  | cons q m ih =>
      intro k x v
      by_cases hq : q.1 = k
      · obtain ⟨q1, q2⟩ := q
        simp only at hq
        subst hq
        simp only [hashInsert, eq_self_iff_true, if_true, List.map_cons,
          List.mem_cons]
        tauto
      · obtain ⟨q1, q2⟩ := q
        simp only at hq
        simp only [hashInsert, if_neg hq, List.map_cons, List.mem_cons, ih]
        tauto

/-- Insertion preserves distinctness of the keys. -/
lemma hashInsert_keys_nodup :
    ∀ (m : List (String × Section)) (k : String) (v : Section),
      (m.map Prod.fst).Nodup → ((hashInsert k v m).map Prod.fst).Nodup := by
  intro m
  induction m with
  | nil => intro k v _; simp [hashInsert]
  | cons q m ih =>
      intro k v h
      obtain ⟨q1, q2⟩ := q
      simp only [List.map_cons, List.nodup_cons] at h
      by_cases hq : q1 = k
      · subst hq
        simp [hashInsert, List.nodup_cons, h.1, h.2]
      · simp only [hashInsert, if_neg hq, List.map_cons, List.nodup_cons]
        refine ⟨?_, ih k v h.2⟩
        rw [hashInsert_mem_keys]
        push_neg
        exact ⟨hq, h.1⟩

/-- The key set after an insertion is the old key set with the inserted
key added. -/
lemma hashInsert_keys_toFinset :
    ∀ (m : List (String × Section)) (k : String) (v : Section),
      ((hashInsert k v m).map Prod.fst).toFinset =
        insert k (m.map Prod.fst).toFinset := by
  intro m
  induction m with
  | nil => intro k v; simp [hashInsert]
  | cons q m ih =>
      intro k v
      obtain ⟨q1, q2⟩ := q
      by_cases hq : q1 = k
      · subst hq
        simp [hashInsert]
      · simp only [hashInsert, if_neg hq, List.map_cons, List.toFinset_cons,
          ih]
        rw [Finset.Insert.comm]

/-- Inserting every binding of `ps` into a map with distinct keys yields a
map whose size is the size of the union of the key sets. -/
lemma hashInsertAll_length_gen :
    ∀ (ps m : List (String × Section)), (m.map Prod.fst).Nodup →
      (hashInsertAll ps m).length =
        ((ps.map Prod.fst).toFinset ∪ (m.map Prod.fst).toFinset).card := by
  intro ps
  induction ps with
  | nil =>
      intro m h
      show m.length = ((∅ : Finset String) ∪ (m.map Prod.fst).toFinset).card
      rw [Finset.empty_union, List.toFinset_card_of_nodup h,
        List.length_map]
  | cons p ps ih =>
      intro m h
      show (hashInsertAll ps (hashInsert p.1 p.2 m)).length = _
      rw [ih (hashInsert p.1 p.2 m) (hashInsert_keys_nodup m p.1 p.2 h),
        hashInsert_keys_toFinset, List.map_cons, List.toFinset_cons,
        Finset.union_insert, Finset.insert_union]

/-- Lookup after insertion: the inserted key maps to the new value, other
keys are unchanged. -/
lemma lookup_hashInsert :
    ∀ (m : List (String × Section)) (k x : String) (v : Section),
      List.lookup x (hashInsert k v m) =
        if x = k then some v else List.lookup x m := by
  intro m
  induction m with
  | nil =>
      intro k x v
      by_cases hx : x = k
      · subst hx; simp [hashInsert, List.lookup]
      · simp [hashInsert, List.lookup, hx, beq_eq_false_iff_ne.mpr hx]
  | cons q m ih =>
      intro k x v
      obtain ⟨q1, q2⟩ := q
      by_cases hq : q1 = k
      · subst hq
        by_cases hx : x = q1
        · subst hx; simp [hashInsert, List.lookup]
        · simp [hashInsert, List.lookup, hx, beq_eq_false_iff_ne.mpr hx]
      · by_cases hx : x = q1
        · subst hx
          have hxk : x ≠ k := hq
          simp [hashInsert, if_neg hq, List.lookup, hxk]
        · simp only [hashInsert, if_neg hq, List.lookup,
            beq_eq_false_iff_ne.mpr hx, ih]

/-- Lookup distributes over list concatenation, preferring the left part. -/
lemma lookup_append :
    ∀ (l1 l2 : List (String × Section)) (x : String),
      List.lookup x (l1 ++ l2) =
        match List.lookup x l1 with
        | some v => some v
        | none => List.lookup x l2 := by
  intro l1
  induction l1 with
  | nil => intro l2 x; simp [List.lookup]
  | cons q l1 ih =>
      intro l2 x
      obtain ⟨q1, q2⟩ := q
      by_cases hx : x = q1
      · subst hx
        simp [List.lookup]
      · simp [List.lookup, beq_eq_false_iff_ne.mpr hx, ih]

/-- Lookup in the accumulated map: the last binding of a key in the
insertion list wins; keys absent from the insertion list fall through to
the initial map. -/
lemma lookup_hashInsertAll :
    ∀ (ps m : List (String × Section)) (x : String),
      List.lookup x (hashInsertAll ps m) =
        match List.lookup x ps.reverse with
        | some v => some v
        | none => List.lookup x m := by
  intro ps
  induction ps with
  | nil => intro m x; simp [hashInsertAll, List.lookup]
  | cons p ps ih =>
      intro m x
      show List.lookup x (hashInsertAll ps (hashInsert p.1 p.2 m)) = _
      rw [ih, List.reverse_cons, lookup_append]
      cases hrev : List.lookup x ps.reverse with
      | some v => rfl
      | none =>
          rw [lookup_hashInsert]
          obtain ⟨p1, p2⟩ := p
          by_cases hx : x = p1
          · subst hx; simp [List.lookup]
          · simp [List.lookup, hx, beq_eq_false_iff_ne.mpr hx]

/-- Claim C8: the decoded section collection has exactly one entry per
distinct resolved name.  First conjunct: the size of the assembled map is
the cardinality of the set of inserted keys.  Second conjunct: looking up
a name in the assembled map returns the binding inserted last in
header-table order (the later section overwrites the earlier one).  Third
conjunct: a section count of zero decodes to a valid File with a
populated header and an empty section collection (`fx0`).  Fourth
conjunct: whenever all decode phases succeed, the File's section
collection is the assembled map of the resolved headers and payloads, and
its size is the number of distinct resolved names among the `shnum`
records. -/
theorem claim8_distinct_names_last_wins :
    (∀ ps : List (String × Section),
      (hashInsertAll ps []).length = (ps.map Prod.fst).toFinset.card)
    ∧ (∀ (ps : List (String × Section)) (x : String),
      List.lookup x (hashInsertAll ps []) = List.lookup x ps.reverse)
    ∧ (parse cursorOps (Cursor.mk fx0 0) = .ok file0
        ∧ file0.sections = [])
    ∧ (∀ (c c1 c2 c3 : Cursor) (e : Ehdr) (idxs : List Nat)
        (shs rs : List SectionHeader) (datas : List (List Nat)),
        parseEhdr cursorOps c = .ok (e, c1) →
        readSectionHeaders cursorOps e.data e.class_ e.shnum
          (Cursor.mk c1.bytes e.shoff) = .ok ((idxs, shs), c2) →
        readDatas cursorOps shs c2 = .ok (datas, c3) →
        resolveNames e.shnum e.shstrndx datas idxs shs = .ok rs →
        ∃ f, parse cursorOps c = .ok f
          ∧ f.sections = assemble rs datas
          ∧ f.sections.length =
              ((rs.zip datas).map (fun p => p.1.name)).toFinset.card) := by
  refine ⟨?_, ?_, ⟨rfl, rfl⟩, ?_⟩
  · intro ps
    rw [hashInsertAll_length_gen ps [] (by simp)]
    simp
  · intro ps x
    rw [lookup_hashInsertAll]
    cases List.lookup x ps.reverse <;> simp [List.lookup]
  · intro c c1 c2 c3 e idxs shs rs datas h1 h2 h3 h4
    refine ⟨{ hdr := { class_ := e.class_, data := e.data,
                       version := e.version, os_abi := e.os_abi,
                       abi_version := e.abi_version, elf_type := e.elf_type,
                       machine := e.machine, entrypoint := e.entry },
              sections := assemble rs datas }, ?_, rfl, ?_⟩
    · simp only [parse, h1, cursorOps_seek, h2, h3, h4]
    · show (assemble rs datas).length = _
      rw [assemble, hashInsertAll_length_gen _ [] (by simp)]
      simp only [List.map_map, List.map_nil, List.toFinset_nil,
        Finset.union_empty, Function.comp_def]

/-- Witness for claim C8: the two-section fixture `fxB` satisfies the
phase hypotheses of the fourth conjunct; its two sections resolve to the
two distinct names (empty and `.text`), so the collection has two
entries. -/
theorem claim8_distinct_names_last_wins_witness :
    ∃ f, parse cursorOps (Cursor.mk fxB 0) = .ok f
      ∧ f.sections = assemble [secB0.hdr, secB1.hdr]
          [secB0.data, secB1.data]
      ∧ f.sections.length =
          (([secB0.hdr, secB1.hdr].zip [secB0.data, secB1.data]).map
            (fun p => p.1.name)).toFinset.card :=
  claim8_distinct_names_last_wins.2.2.2 (Cursor.mk fxB 0)
    (Cursor.mk fxB 64) (Cursor.mk fxB 192) (Cursor.mk fxB 80)
    { class_ := 2, data := 1, os_abi := 0, abi_version := 0, elf_type := 2,
      machine := 62, version := 1, entry := 0, phoff := 0, shoff := 64,
      flags := 0, ehsize := 64, phentsize := 56, phnum := 0,
      shentsize := 64, shnum := 2, shstrndx := 0 }
    [0, 1]
    [{ secB0.hdr with name := "" }, { secB1.hdr with name := "" }]
    [secB0.hdr, secB1.hdr]
    [secB0.data, secB1.data]
    rfl rfl rfl rfl

/-- A lookup misses exactly when no binding carries the queried key. -/
lemma lookup_none_iff :
    ∀ (l : List (String × Section)) (x : String),
      (List.lookup x l = none ↔ ∀ p ∈ l, p.1 ≠ x) := by
  intro l
  induction l with
  | nil => intro x; simp [List.lookup]
  | cons q l ih =>
      intro x
      obtain ⟨q1, q2⟩ := q
      by_cases hx : x = q1
      · subst hx
        simp [List.lookup]
      · simp [List.lookup, beq_eq_false_iff_ne.mpr hx, ih,
          fun h : q1 = x => hx h.symm]
        intro _
        exact fun h => hx h.symm

/-- Claim C9: the lookup operation maps a queried name by exact,
case-sensitive string match to that section's header fields and raw
bytes, and returns "not found" exactly for the names no section resolved
to; the header query returns the decoded FileHeader.  The last conjunct
is scenario B: decoding `fxB` and querying `.text` returns exactly the 16
bytes read from offset 64 of the source, and querying `.data` returns
"not found". -/
theorem claim9_get_section_lookup :
    (∀ (f : File) (name : String),
      (f.get_section name = none ↔ ∀ p ∈ f.sections, p.1 ≠ name))
    ∧ (∀ (f : File) (name : String) (s : Section),
      List.lookup name f.sections = some s →
      f.get_section name = some { name := s.hdr.name, addr := s.hdr.addr,
                                  size := s.hdr.size, data := s.data })
    ∧ (∀ f : File, File.header f = f.hdr)
    ∧ (parse cursorOps (Cursor.mk fxB 0) = .ok fileB
      ∧ fileB.get_section ".text" =
          some { name := ".text", addr := 0, size := 16,
                 data := [0, 0, 0, 0, 3, 0, 0, 0, 0, 0, 0, 0, 0, 0, 0, 0] }
      ∧ (fxB.drop 64).take 16 =
          [0, 0, 0, 0, 3, 0, 0, 0, 0, 0, 0, 0, 0, 0, 0, 0]
      ∧ fileB.get_section ".data" = none) := by
  refine ⟨?_, ?_, fun _ => rfl, rfl, rfl, rfl, rfl⟩
  · intro f name
    rw [← lookup_none_iff]
    unfold File.get_section
    cases List.lookup name f.sections <;> simp
  · intro f name s h
    unfold File.get_section
    rw [h]

/-- Witness for claim C9: applied to the decoded `fxB`, the lookup of
`.text` hits the binding of `secB1` and returns its header fields and
bytes. -/
theorem claim9_get_section_lookup_witness :
    fileB.get_section ".text" =
      some { name := secB1.hdr.name, addr := secB1.hdr.addr,
             size := secB1.hdr.size, data := secB1.data } :=
  claim9_get_section_lookup.2.1 fileB ".text" secB1 rfl

/-- Counterexample to claim C1: decoding `fxC1` — whose single section
declares offset 128 and size 5 while the stream is 128 bytes long, so the
declared range exceeds the stream — succeeds, returning a File whose
section stores an empty payload instead of the declared 5 bytes: the
shortfall is not a hard failure and the payload is silently truncated. -/
theorem claim1_counterexample :
    parse cursorOps (Cursor.mk fxC1 0) = .ok fileC1
    ∧ List.lookup "" fileC1.sections = some secC1
    ∧ secC1.data.length = 0
    ∧ secC1.hdr.size = 5
    ∧ fxC1.length < secC1.hdr.offset + secC1.hdr.size :=
  ⟨rfl, rfl, rfl, rfl, by norm_num [fxC1, le2, le4, le8, secC1]⟩

/-- Evaluation of the cursor byte-iterator step. -/
lemma cursorOps_readByte (c : Cursor) :
    cursorOps.readByte c =
      match c.bytes.get? c.pos with
      | some b => (.ok (some b), Cursor.mk c.bytes (c.pos + 1))
      | none => (.ok none, c) := rfl

/-- On the in-memory source the payload loop never fails: it returns the
available prefix of the requested length, preserving the underlying
bytes. -/
lemma readUpToBytes_cursor :
    ∀ (n : Nat) (c : Cursor), ∃ p2,
      readUpToBytes cursorOps n c =
        .ok ((c.bytes.drop c.pos).take n, Cursor.mk c.bytes p2) := by
  intro n
  induction n with
  | zero => intro c; exact ⟨c.pos, rfl⟩
  | succ n ih =>
      intro c
      cases hget : c.bytes.get? c.pos with
      | none =>
          refine ⟨c.pos, ?_⟩
          have hd : c.bytes.drop c.pos = [] :=
            List.drop_eq_nil_of_le (List.get?_eq_none.mp hget)
          rw [readUpToBytes, cursorOps_readByte, hget, hd]
          rfl
      | some b =>
          obtain ⟨p2, hIH⟩ := ih (Cursor.mk c.bytes (c.pos + 1))
          refine ⟨p2, ?_⟩
          rw [readUpToBytes, cursorOps_readByte, hget]
          simp only at hIH
          simp only [bind, Except.bind, hIH]
          have hlt : c.pos < c.bytes.length := by
            cases hq : c.bytes.get? c.pos with
            | none => rw [hq] at hget; cases hget
            | some x =>
                by_contra hc
                rw [List.get?_eq_none.mpr (by omega)] at hq
                cases hq
          have hb : c.bytes.drop c.pos = b :: c.bytes.drop (c.pos + 1) := by
            rw [List.drop_eq_getElem_cons hlt]
            congr 1
            have := List.get?_eq_getElem? c.bytes c.pos
            rw [hget, List.getElem?_eq_getElem hlt] at this
            exact (Option.some.injEq _ _).mp this.symm
          rw [hb, List.take_succ_cons]

/-- On the in-memory source the payload phase never fails: every section
contributes the available prefix, of its declared size, starting at its
declared offset; the underlying bytes are preserved. -/
lemma readDatas_cursor :
    ∀ (shs : List SectionHeader) (c : Cursor), ∃ p2,
      readDatas cursorOps shs c =
        .ok (shs.map (fun sh => (c.bytes.drop sh.offset).take sh.size),
             Cursor.mk c.bytes p2) := by
  intro shs
  induction shs with
  | nil => intro c; exact ⟨c.pos, rfl⟩
  | cons sh rest ih =>
      intro c
      obtain ⟨p1, hA⟩ := readUpToBytes_cursor sh.size
        (Cursor.mk c.bytes sh.offset)
      obtain ⟨p2, hB⟩ := ih (Cursor.mk c.bytes p1)
      simp only at hA hB
      refine ⟨p2, ?_⟩
      rw [readDatas, cursorOps_seek]
      simp only [bind, Except.bind, hA, hB]
      rw [List.map_cons]

/-- The name-resolution loop changes only the name field: position `j`
keeps its offset and size. -/
lemma resolveGo_preserves :
    ∀ (fuel i shstrndx : Nat) (datas : List (List Nat)) (idxs : List Nat)
      (shs rs : List SectionHeader),
      resolveGo datas idxs shstrndx fuel i shs = .ok rs →
      ∀ j, (rs.get? j).map (fun sh => (sh.offset, sh.size)) =
        (shs.get? j).map (fun sh => (sh.offset, sh.size)) := by
  intro fuel
  induction fuel with
  | zero =>
      intro i shstrndx datas idxs shs rs h j
      simp only [resolveGo, Except.ok.injEq] at h
      rw [h]
  | succ fuel ih =>
      intro i shstrndx datas idxs shs rs h j
      rw [resolveGo] at h
      cases hst : datas.get? shstrndx with
      | none => simp only [hst] at h; exact (Except.noConfusion h)
      | some strtab =>
          simp only [hst] at h
          cases hidx : idxs.get? i with
          | none => simp only [hidx] at h; exact (Except.noConfusion h)
          | some idx =>
              simp only [hidx] at h
              cases hges : get_elf_string strtab idx with
              | error er => simp only [hges] at h; exact (Except.noConfusion h)
              | ok nm =>
                  simp only [hges] at h
                  cases hsh : shs.get? i with
                  | none => simp only [hsh] at h; exact (Except.noConfusion h)
                  | some sh =>
                      simp only [hsh] at h
                      have hrec := ih (i + 1) shstrndx datas idxs _ rs h j
                      rw [hrec, List.get?_set]
                      by_cases hij : i = j
                      · subst hij
                        rw [if_pos rfl, hsh]
                        rfl
                      · rw [if_neg hij]

/-- Every binding of the map after an insertion is the inserted binding or
one of the old bindings. -/
lemma hashInsert_mem :
    ∀ (m : List (String × Section)) (k : String) (v : Section)
      (q : String × Section),
      q ∈ hashInsert k v m → q = (k, v) ∨ q ∈ m := by
  intro m
  induction m with
  | nil => intro k v q h; simpa [hashInsert] using h
  | cons p m ih =>
      intro k v q h
      obtain ⟨p1, p2⟩ := p
      by_cases hp : p1 = k
      · subst hp
        rw [hashInsert, if_pos rfl] at h
        rcases List.mem_cons.mp h with h1 | h1
        · exact Or.inl h1
        · exact Or.inr (List.mem_cons_of_mem _ h1)
      · rw [hashInsert, if_neg hp] at h
        rcases List.mem_cons.mp h with h1 | h1
        · exact Or.inr (h1 ▸ List.mem_cons_self _ _)
        · rcases ih k v q h1 with h2 | h2
          · exact Or.inl h2
          · exact Or.inr (List.mem_cons_of_mem _ h2)

/-- Every binding of the accumulated map comes from the insertion list or
from the initial map. -/
lemma hashInsertAll_mem :
    ∀ (ps m : List (String × Section)) (q : String × Section),
      q ∈ hashInsertAll ps m → q ∈ ps ∨ q ∈ m := by
  intro ps
  induction ps with
  | nil => intro m q h; exact Or.inr h
  | cons p ps ih =>
      intro m q h
      rcases ih (hashInsert p.1 p.2 m) q h with h2 | h2
      · exact Or.inl (List.mem_cons_of_mem _ h2)
      · rcases hashInsert_mem m p.1 p.2 q h2 with h3 | h3
        · exact Or.inl (by simp [h3])
        · exact Or.inr h3

/-- Claim C1 as amended: whenever the decode phases succeed, the decode
returns a File in which every section's stored payload length equals the
minimum of the header's declared size and the number of bytes available in
the stream from the declared offset on — the payload equals the declared
size only when the declared range fits in the stream; when `offset + size`
exceeds the stream length the decode still succeeds and the payload is
silently truncated to the available bytes. -/
theorem claim1_amended_truncated_payload
    (c c1 c2 : Cursor) (e : Ehdr) (idxs : List Nat)
    (shs rs : List SectionHeader)
    (h1 : parseEhdr cursorOps c = .ok (e, c1))
    (h2 : readSectionHeaders cursorOps e.data e.class_ e.shnum
            (Cursor.mk c1.bytes e.shoff) = .ok ((idxs, shs), c2))
    (h3 : resolveNames e.shnum e.shstrndx
            (shs.map (fun sh => (c2.bytes.drop sh.offset).take sh.size))
            idxs shs = .ok rs) :
    ∃ f, parse cursorOps c = .ok f ∧
      ∀ p ∈ f.sections,
        p.2.data.length =
          min p.2.hdr.size (c2.bytes.length - p.2.hdr.offset) := by
  obtain ⟨p2, hD⟩ := readDatas_cursor shs c2
  refine ⟨{ hdr := { class_ := e.class_, data := e.data,
                     version := e.version, os_abi := e.os_abi,
                     abi_version := e.abi_version, elf_type := e.elf_type,
                     machine := e.machine, entrypoint := e.entry },
            sections := assemble rs
              (shs.map (fun sh =>
                (c2.bytes.drop sh.offset).take sh.size)) }, ?_, ?_⟩
  · simp only [parse, h1, cursorOps_seek, h2, hD, h3]
  · intro p hp
    simp only [assemble] at hp
    rcases hashInsertAll_mem _ [] p hp with hmem | hmem
    · obtain ⟨pr, hpr, hpq⟩ := List.mem_map.mp hmem
      obtain ⟨j, hj⟩ := List.mem_iff_get?.mp hpr
      obtain ⟨hj1, hj2⟩ := (List.get?_zip_eq_some _ _ _ _).mp hj
      rw [List.get?_map] at hj2
      cases hsh : shs.get? j with
      | none => rw [hsh] at hj2; cases hj2
      | some shj =>
          rw [hsh] at hj2
          simp at hj2
          have hpres := resolveGo_preserves e.shnum 0 e.shstrndx _ idxs
            shs rs h3 j
          rw [hj1, hsh] at hpres
          simp [Prod.ext_iff] at hpres
          subst hpq
          simp only
          rw [← hj2, List.length_take, List.length_drop,
            hpres.1, hpres.2]
    · exact absurd hmem (List.not_mem_nil p)

/-- Witness for the amended claim C1: the truncating fixture `fxC1`
satisfies the phase hypotheses; its section stores
`min 5 (128 - 128) = 0` bytes. -/
theorem claim1_amended_truncated_payload_witness :
    ∃ f, parse cursorOps (Cursor.mk fxC1 0) = .ok f ∧
      ∀ p ∈ f.sections,
        p.2.data.length =
          min p.2.hdr.size ((Cursor.mk fxC1 128).bytes.length -
            p.2.hdr.offset) :=
  claim1_amended_truncated_payload (Cursor.mk fxC1 0) (Cursor.mk fxC1 64)
    (Cursor.mk fxC1 128)
    { class_ := 2, data := 1, os_abi := 0, abi_version := 0, elf_type := 2,
      machine := 62, version := 1, entry := 0, phoff := 0, shoff := 64,
      flags := 0, ehsize := 64, phentsize := 56, phnum := 0,
      shentsize := 64, shnum := 1, shstrndx := 0 }
    [0] [secC1.hdr] [secC1.hdr] rfl rfl rfl

end Execfmt
